import Mathlib

/-!
Verification of the Unison document state synchronization and caching engine.

This file gives a shallow embedding of the core of the repository:
the `DocumentService` (replica cache, dirty tracking, sync scheduling) from
`src/services/documentService.ts`, the Redis helpers (sliding-window rate
limiter, distributed lock) from `src/services/redis.ts`, and the abuse
guard and rate-limit gates from `src/middleware/rateLimitMiddleware.ts`.

Modelling conventions:
* JavaScript `Map<string, V>` becomes an association list `Map V` over
  `String` keys with `mget` / `mset` / `mdel`.
* Timestamps (`Date.now()`) are passed in explicitly as `Nat` milliseconds.
* The Yjs CRDT is out of scope of the spec ("correct-by-assumption
  library"); a document replica is the abstract sequence of merged update
  bytes, `applyUpdate` appends, and `encodeStateAsUpdate` is the identity
  on that abstract state.
* Fallible external calls (Prisma writes, Redis round-trips) are driven by
  explicit success oracles (`dbOk : Bool`, `wOk : String → Bool`,
  `CacheOutcome`); a thrown-and-caught exception is the `false` / `err`
  branch.
-/

/-- Association-list model of a JavaScript `Map` with `String` keys. -/
abbrev Map (α : Type) : Type := List (String × α)

/-- `Map.get`: first binding of the key, if any. -/
def mget {α : Type} : Map α → String → Option α
  | [], _ => none
  | (k', v) :: rest, k => if k' = k then some v else mget rest k

/-- `Map.set`: replace the existing binding in place, else append. -/
def mset {α : Type} : Map α → String → α → Map α
  | [], k, v => [(k, v)]
  | (k', v') :: rest, k, v =>
    if k' = k then (k, v) :: rest else (k', v') :: mset rest k v

/-- `Map.delete`: remove every binding of the key. -/
def mdel {α : Type} : Map α → String → Map α
  | [], _ => []
  | (k', v) :: rest, k =>
    if k' = k then mdel rest k else (k', v) :: mdel rest k

/-- The keys of a map, in insertion order (`Array.from(map.keys())`). -/
def mkeys {α : Type} (m : Map α) : List String := m.map (·.1)

theorem mget_mset_self {α : Type} (m : Map α) (k : String) (v : α) :
    mget (mset m k v) k = some v := by
  induction m with
  | nil => simp [mget, mset]
  | cons p rest ih =>
    by_cases h : p.1 = k
    · cases p with
      | mk k' v' =>
        simp only [mset]
        rw [if_pos h]
        simp [mget]
    · cases p with
      | mk k' v' =>
        simp only [mset]
        rw [if_neg h]
        simp only [mget]
        rw [if_neg h]
        exact ih

theorem mget_mset_ne {α : Type} (m : Map α) (k k' : String) (v : α)
    (h : k ≠ k') : mget (mset m k v) k' = mget m k' := by
  induction m with
  | nil => simp [mget, mset, h]
  | cons p rest ih =>
    cases p with
    | mk k₀ v₀ =>
      by_cases h₀ : k₀ = k
      · simp only [mset]
        rw [if_pos h₀]
        simp only [mget]
        rw [if_neg h, h₀]
        rw [if_neg h]
      · simp only [mset]
        rw [if_neg h₀]
        simp only [mget]
        by_cases h₁ : k₀ = k'
        · rw [if_pos h₁, if_pos h₁]
        · rw [if_neg h₁, if_neg h₁]
          exact ih

theorem mget_mdel_self {α : Type} (m : Map α) (k : String) :
    mget (mdel m k) k = none := by
  induction m with
  | nil => simp [mget, mdel]
  | cons p rest ih =>
    cases p with
    | mk k₀ v₀ =>
      by_cases h₀ : k₀ = k
      · simp only [mdel]
        rw [if_pos h₀]
        exact ih
      · simp only [mdel]
        rw [if_neg h₀]
        simp only [mget]
        rw [if_neg h₀]
        exact ih

theorem mget_mdel_ne {α : Type} (m : Map α) (k k' : String)
    (h : k ≠ k') : mget (mdel m k) k' = mget m k' := by
  induction m with
  | nil => simp [mdel]
  | cons p rest ih =>
    cases p with
    | mk k₀ v₀ =>
      by_cases h₀ : k₀ = k
      · simp only [mdel]
        rw [if_pos h₀]
        simp only [mget]
        rw [h₀, if_neg h]
        exact ih
      · simp only [mdel]
        rw [if_neg h₀]
        simp only [mget]
        by_cases h₁ : k₀ = k'
        · rw [if_pos h₁, if_pos h₁]
        · rw [if_neg h₁, if_neg h₁]
          exact ih

/-! ## Redis sliding-window rate limiter (`RedisService.incrementRateLimit`)

The sorted set `ratelimit:{key}` is modelled as a list of
`(score, member-tag)` pairs.  The member string `` `${now}-${Math.random()}` ``
is modelled by the pair `(now, tag)` with a caller-supplied fresh `tag`.
`zremrangebyscore key 0 (now - windowMs)` removes exactly the entries with
`score ≤ now - windowMs` (over the integers), i.e. keeps `score + windowMs > now`. -/

/-- Result shape of `incrementRateLimit`. -/
structure RLResult where
  allowed : Bool
  remaining : Nat
  retryAfter : Option Nat
  deriving Repr, DecidableEq

/-- Minimum score of a sorted-set snapshot (`zrange key 0 0 WITHSCORES`). -/
def minScore : List (Nat × Nat) → Option Nat
  | [] => none
  | e :: rest =>
    match minScore rest with
    | none => some e.1
    | some m => some (if e.1 ≤ m then e.1 else m)

/-- The `zremrangebyscore` + `zadd` steps of `incrementRateLimit`: prune
entries with `score ≤ now - windowMs` and add the member `(now, tag)`
(sorted-set members are unique, so adding a present member is a no-op). -/
def pruneInsert (now tag windowMs : Nat) (entries : List (Nat × Nat)) :
    List (Nat × Nat) :=
  let pruned := entries.filter (fun e => decide (now < e.1 + windowMs))
  if (now, tag) ∈ pruned then pruned else pruned ++ [(now, tag)]

/-- `RedisService.incrementRateLimit` from `src/services/redis.ts`:
prune entries outside the trailing window, add a uniquely tagged entry
for the current request, read the cardinality; deny when it exceeds
`maxRequests`, with `retryAfter` computed from the oldest surviving
entry's score plus the window (`Math.ceil` on milliseconds → seconds). -/
def incrementRateLimit (now tag : Nat) (entries : List (Nat × Nat))
    (windowMs maxRequests : Nat) : RLResult × List (Nat × Nat) :=
  let inserted := pruneInsert now tag windowMs entries
  let current := inserted.length
  if current > maxRequests then
    let retryAfter :=
      match minScore inserted with
      | some oldest => (oldest + windowMs - now + 999) / 1000
      | none => (windowMs + 999) / 1000
    (⟨false, 0, some retryAfter⟩, inserted)
  else
    (⟨true, maxRequests - current, none⟩, inserted)

/-! ## Redis distributed lock (`RedisService.releaseLock`)

The value stored at `lock:{key}` is modelled as `Option String`
(`none` = key absent / expired).  The Lua compare-and-delete script
returns 1 (here `true`) exactly when the stored value matched and the key
was deleted. -/

/-- `RedisService.releaseLock` from `src/services/redis.ts`:
the atomic `get`/compare/`del` script applied to the current stored value. -/
def releaseLock (stored : Option String) (lockId : String) :
    Bool × Option String :=
  match stored with
  | some v => if v = lockId then (true, none) else (false, some v)
  | none => (false, none)

/-! ## Abuse guard (`src/middleware/rateLimitMiddleware.ts`)

The in-process `abuseTracker` map and its constants, plus the two
rate-limit gates built on it.  `isBlocked` may mutate the tracker
(deleting an expired entry), so it returns the updated map. -/

/-- `ABUSE_THRESHOLD` from `src/middleware/rateLimitMiddleware.ts`. -/
def ABUSE_THRESHOLD : Nat := 10

/-- `ABUSE_WINDOW` (1 hour in ms) from `src/middleware/rateLimitMiddleware.ts`. -/
def ABUSE_WINDOW : Nat := 60 * 60 * 1000

/-- `BLOCK_DURATION` (24 hours in ms) from `src/middleware/rateLimitMiddleware.ts`. -/
def BLOCK_DURATION : Nat := 24 * 60 * 60 * 1000

/-- One `abuseTracker` entry: `{ count, firstSeen, blocked }`. -/
structure AbuseEntry where
  count : Nat
  firstSeen : Nat
  blocked : Bool
  deriving Repr, DecidableEq

/-- `trackAbuse` from `src/middleware/rateLimitMiddleware.ts`: start (or
restart, once the abuse window has elapsed since `firstSeen`) the entry at
count 1, otherwise increment the count and set `blocked` when it reaches
the threshold. -/
def trackAbuse (now : Nat) (t : Map AbuseEntry) (identifier : String) :
    Map AbuseEntry :=
  match mget t identifier with
  | none => mset t identifier ⟨1, now, false⟩
  | some e =>
    if now - e.firstSeen > ABUSE_WINDOW then
      mset t identifier ⟨1, now, false⟩
    else
      let c := e.count + 1
      mset t identifier ⟨c, e.firstSeen, e.blocked || decide (c ≥ ABUSE_THRESHOLD)⟩

/-- `isBlocked` from `src/middleware/rateLimitMiddleware.ts`: `false` when
there is no blocked entry; a blocked entry past `BLOCK_DURATION` since
`firstSeen` is deleted and reported unblocked; otherwise `true`. -/
def isBlocked (now : Nat) (t : Map AbuseEntry) (identifier : String) :
    Bool × Map AbuseEntry :=
  match mget t identifier with
  | none => (false, t)
  | some e =>
    if e.blocked = false then (false, t)
    else if now - e.firstSeen > BLOCK_DURATION then (false, mdel t identifier)
    else (true, t)

/-- Outcome of the `RedisService.incrementRateLimit` round-trip as seen by
the middleware: the resolved result, or a thrown error (cache unreachable). -/
inductive CacheOutcome where
  | ok (r : RLResult)
  | err
  deriving Repr, DecidableEq

/-- The decision core of the Express middleware returned by
`createRateLimiter` in `src/middleware/rateLimitMiddleware.ts`:
blocked identities are rejected up front; then the sliding-window check
runs; a thrown check admits the request (`next()` in the catch branch);
a denial records abuse and rejects; otherwise the request is admitted.
The returned `Bool` is `true` when the request is admitted. -/
def createRateLimiterStep (now : Nat) (t : Map AbuseEntry)
    (identifier : String) (cache : CacheOutcome) : Bool × Map AbuseEntry :=
  let b := isBlocked now t identifier
  if b.1 then
    (false, b.2)
  else
    match cache with
    | .err => (true, b.2)
    | .ok r =>
      if r.allowed then (true, b.2)
      else (false, trackAbuse now b.2 identifier)

/-- The decision core of `socketRateLimiter` in
`src/middleware/rateLimitMiddleware.ts`: same gate structure as the HTTP
middleware (up-front block check, fail-open catch branch, abuse tracking
on denial), with `next(new Error(...))` as rejection. -/
def socketRateLimiterStep (now : Nat) (t : Map AbuseEntry)
    (identifier : String) (cache : CacheOutcome) : Bool × Map AbuseEntry :=
  let b := isBlocked now t identifier
  if b.1 then
    (false, b.2)
  else
    match cache with
    | .err => (true, b.2)
    | .ok r =>
      if r.allowed then (true, b.2)
      else (false, trackAbuse now b.2 identifier)

/-! ## DocumentService (`src/services/documentService.ts`)

A Yjs replica is the abstract sequence of merged update bytes
(`Bytes := List Nat`); `applyUpdate` merges by appending, the empty
replica is `[]`, and `encodeStateAsUpdate` serializes a replica as
itself (base64 encoding is a bijection the spec treats as opaque).
`Buffer.from(s, 'base64')` / `.toString('base64')` are therefore both
the identity here. -/

/-- Opaque update / serialized-state bytes. -/
abbrev Bytes : Type := List Nat

/-- The empty Yjs replica (`new Doc()`). -/
def emptyDoc : Bytes := []

/-- `applyUpdate(doc, update)` from the yjs library: merge the update into
the replica (abstractly, append the update's content). -/
def applyUpdate (doc update : Bytes) : Bytes := doc ++ update

/-- `encodeStateAsUpdate(doc)` from the yjs library: the full serialized
state of the replica. -/
def encodeStateAsUpdate (doc : Bytes) : Bytes := doc

/-- `SYNC_INTERVAL_MS` from `src/services/documentService.ts`. -/
def SYNC_INTERVAL_MS : Nat := 5000

/-- `BATCH_WRITE_THRESHOLD` from `src/services/documentService.ts`. -/
def BATCH_WRITE_THRESHOLD : Nat := 10

/-- `MAX_PENDING_UPDATES` from `src/services/documentService.ts`. -/
def MAX_PENDING_UPDATES : Nat := 100

/-- `PendingUpdate` from `src/services/documentService.ts`. -/
structure PendingUpdate where
  documentId : String
  state : Bytes
  timestamp : Nat
  deriving Repr, DecidableEq

/-- One `yjsDocumentCache` entry: `{ doc, lastAccess }`. -/
structure CachedDoc where
  doc : Bytes
  lastAccess : Nat
  deriving Repr, DecidableEq

/-- The mutable per-instance state of `DocumentService`:
`pendingUpdates`, `updateCount` and `yjsDocumentCache`. -/
structure DocState where
  pendingUpdates : Map PendingUpdate
  updateCount : Map Nat
  yjsDocumentCache : Map CachedDoc
  deriving Repr, DecidableEq

/-- One durable-store row (`prisma.document`): serialized content and its
`updatedAt` timestamp. -/
structure DbRow where
  content : Bytes
  updatedAt : Nat
  deriving Repr, DecidableEq

/-- The external stores: the Redis `document:{id}:state` cache and the
durable `document` table. -/
structure Stores where
  redisDocState : Map Bytes
  dbDocs : Map DbRow
  deriving Repr, DecidableEq

/-- The database branch of `getYjsDocument` (lines 200–220 of
`src/services/documentService.ts`): load the row, throw `Document not
found` when it is absent, decode non-empty content into a fresh replica
(a falsy empty string leaves the replica empty), write the content back
to the Redis cache and the replica into the memory tier. -/
def getFromDatabase (now : Nat) (s : DocState) (st : Stores)
    (documentId : String) : Except String (Bytes × DocState × Stores) :=
  match mget st.dbDocs documentId with
  | none => .error "Document not found"
  | some row =>
    let yjsDoc :=
      if row.content.isEmpty then emptyDoc
      else applyUpdate emptyDoc row.content
    let st' := { st with
      redisDocState := mset st.redisDocState documentId row.content }
    let s' := { s with
      yjsDocumentCache := mset s.yjsDocumentCache documentId ⟨yjsDoc, now⟩ }
    .ok (yjsDoc, s', st')

/-- `getYjsDocument` from `src/services/documentService.ts`: memory tier
first (refreshing `lastAccess`), then the Redis cache (a truthy, i.e.
non-empty, cached string is decoded into a fresh replica and stored in the
memory tier), then the database. -/
def getYjsDocument (now : Nat) (s : DocState) (st : Stores)
    (documentId : String) : Except String (Bytes × DocState × Stores) :=
  match mget s.yjsDocumentCache documentId with
  | some c =>
    .ok (c.doc,
      { s with
        yjsDocumentCache := mset s.yjsDocumentCache documentId ⟨c.doc, now⟩ },
      st)
  | none =>
    match mget st.redisDocState documentId with
    | some cachedState =>
      if cachedState.isEmpty then
        getFromDatabase now s st documentId
      else
        let yjsDoc := applyUpdate emptyDoc cachedState
        .ok (yjsDoc,
          { s with
            yjsDocumentCache :=
              mset s.yjsDocumentCache documentId ⟨yjsDoc, now⟩ },
          st)
    | none => getFromDatabase now s st documentId

/-- `syncDocumentToDatabase` from `src/services/documentService.ts`:
no-op without a pending update; otherwise attempt the durable write
(`prisma.document.update`, which succeeds exactly when the store is up
(`dbOk`) and the row exists).  On success, delete the pending update and
reset the counter to 0; on a caught failure, change nothing. -/
def syncDocumentToDatabase (now : Nat) (dbOk : Bool) (s : DocState)
    (st : Stores) (documentId : String) : DocState × Stores :=
  match mget s.pendingUpdates documentId with
  | none => (s, st)
  | some pu =>
    if dbOk && (mget st.dbDocs documentId).isSome then
      ({ s with
          pendingUpdates := mdel s.pendingUpdates documentId,
          updateCount := mset s.updateCount documentId 0 },
       { st with dbDocs := mset st.dbDocs documentId ⟨pu.state, now⟩ })
    else
      (s, st)

/-- Result of one `applyYjsUpdate` call.  `syncAttempted` records whether
the threshold branch called `syncDocumentToDatabase`; `returnedState` is
the value the TypeScript function hands back to its caller — the source
is typed `Promise<void>` and has no return statement, so it is always
`none` (kept as `Option Bytes` to compare against the spec contract that
promises the new serialized state). -/
structure ApplyResult where
  docState : DocState
  stores : Stores
  syncAttempted : Bool
  returnedState : Option Bytes
  deriving Repr, DecidableEq

/-- `applyYjsUpdate` from `src/services/documentService.ts`: resolve the
replica, merge the update, refresh the memory-tier entry, cache the new
serialized state in Redis, increment the per-document counter, record the
pending update, and force a sync once the counter reaches
`BATCH_WRITE_THRESHOLD`. -/
def applyYjsUpdate (now : Nat) (dbOk : Bool) (s : DocState) (st : Stores)
    (documentId : String) (update : Bytes) : Except String ApplyResult :=
  match getYjsDocument now s st documentId with
  | .error e => .error e
  | .ok (yjsDoc0, s1, st1) =>
    let yjsDoc := applyUpdate yjsDoc0 update
    let s2 := { s1 with
      yjsDocumentCache := mset s1.yjsDocumentCache documentId ⟨yjsDoc, now⟩ }
    let newState := encodeStateAsUpdate yjsDoc
    let st2 := { st1 with
      redisDocState := mset st1.redisDocState documentId newState }
    let currentCount := (mget s2.updateCount documentId).getD 0 + 1
    let s3 := { s2 with
      updateCount := mset s2.updateCount documentId currentCount }
    let s4 := { s3 with
      pendingUpdates :=
        mset s3.pendingUpdates documentId ⟨documentId, newState, now⟩ }
    if currentCount ≥ BATCH_WRITE_THRESHOLD then
      let r := syncDocumentToDatabase now dbOk s4 st2 documentId
      .ok ⟨r.1, r.2, true, none⟩
    else
      .ok ⟨s4, st2, false, none⟩

/-- Result shape of `batchSyncDocuments`. -/
structure BatchResult where
  docState : DocState
  stores : Stores
  synced : Nat
  failed : Nat
  deriving Repr, DecidableEq

/-- The loop body of `batchSyncDocuments` run inside the Prisma
transaction: walk the captured key list; for each still-pending document
attempt the transactional write (`wOk` says whether `tx.document.update`
succeeds for that id), eagerly deleting the in-memory pending record and
zeroing the counter, and counting `synced++`.  A throw stops the loop;
the returned `Bool` is `true` when the whole loop completed (so the
transaction commits). -/
def batchLoop (wOk : String → Bool) (now : Nat) (ids : List String)
    (s : DocState) (db : Map DbRow) (synced : Nat) :
    DocState × Map DbRow × Nat × Bool :=
  match ids with
  | [] => (s, db, synced, true)
  | id :: rest =>
    match mget s.pendingUpdates id with
    | none => batchLoop wOk now rest s db synced
    | some pu =>
      if wOk id then
        batchLoop wOk now rest
          { s with
            pendingUpdates := mdel s.pendingUpdates id,
            updateCount := mset s.updateCount id 0 }
          (mset db id ⟨pu.state, now⟩) (synced + 1)
      else
        (s, db, synced, false)

/-- Test driver: issue `n` consecutive `applyYjsUpdate` calls for one
document (the spec's "150 rapid edits" scenario), threading the service
state and stores and propagating a thrown error. -/
def applyN (n : Nat) (now : Nat) (dbOk : Bool) (p : DocState × Stores)
    (documentId : String) (update : Bytes) :
    Except String (DocState × Stores) :=
  match n with
  | 0 => .ok p
  | n + 1 =>
    match applyYjsUpdate now dbOk p.1 p.2 documentId update with
    | .error e => .error e
    | .ok r => applyN n now dbOk (r.docState, r.stores) documentId update

/-- `batchSyncDocuments` from `src/services/documentService.ts`: snapshot
the dirty document ids, run the per-document writes inside one
transaction (`withTransaction` / `prisma.$transaction`, so a throw rolls
back every tentative durable write), and report
`{ synced, failed := ids.length - synced }` on failure.  The in-memory
deletions performed before the throw are not rolled back. -/
def batchSyncDocuments (wOk : String → Bool) (now : Nat) (s : DocState)
    (st : Stores) : BatchResult :=
  let documentIds := mkeys s.pendingUpdates
  let r := batchLoop wOk now documentIds s st.dbDocs 0
  if r.2.2.2 then
    ⟨r.1, { st with dbDocs := r.2.1 }, r.2.2.1, 0⟩
  else
    ⟨r.1, st, r.2.2.1, documentIds.length - r.2.2.1⟩

/-! ## Theorems -/

/-- C9: `releaseLock(key, token)` deletes the lock key if and only if its
current value equals the given token (returning `true`); otherwise it
leaves the key unchanged and returns `false` — so a holder whose lock
expired and was re-acquired by another process can never release that
other holder's lock. -/
theorem releaseLock_compare_and_delete (stored : Option String) (tok : String) :
    ((releaseLock stored tok).1 = true ↔ stored = some tok) ∧
    (stored = some tok → releaseLock stored tok = (true, none)) ∧
    (stored ≠ some tok → releaseLock stored tok = (false, stored)) := by
  refine ⟨?_, ?_, ?_⟩
  · constructor
    · intro h
      cases stored with
      | none => simp [releaseLock] at h
      | some v =>
        simp only [releaseLock] at h
        by_cases hv : v = tok
        · rw [hv]
        · rw [if_neg hv] at h
          simp at h
    · intro h
      subst h
      simp [releaseLock]
  · intro h
    subst h
    simp [releaseLock]
  · intro h
    cases stored with
    | none => simp [releaseLock]
    | some v =>
      have hv : v ≠ tok := by
        intro hv
        exact h (by rw [hv])
      simp [releaseLock, hv]

/-- Witness for C9: a lock that expired and was re-acquired by another
process under token `"other"` is not released by the stale token
`"mine"`, and the genuine holder's release does delete the key. -/
theorem releaseLock_compare_and_delete_witness :
    releaseLock (some "other") "mine" = (false, some "other") ∧
    releaseLock (some "mine") "mine" = (true, none) :=
  ⟨(releaseLock_compare_and_delete (some "other") "mine").2.2 (by decide),
   (releaseLock_compare_and_delete (some "mine") "mine").2.1 rfl⟩

/-- C10: the rate-limit gates fail open — when the identity is not
blocked and the shared-cache sliding-window check throws, both the HTTP
middleware and the socket limiter admit the request; conversely a request
rejected by either gate was from an already-blocked identity or was
denied by a successful cache check. -/
theorem rateLimit_gates_fail_open (now : Nat) (t : Map AbuseEntry)
    (identifier : String) :
    ((isBlocked now t identifier).1 = false →
      (createRateLimiterStep now t identifier .err).1 = true ∧
      (socketRateLimiterStep now t identifier .err).1 = true) ∧
    (∀ c, (createRateLimiterStep now t identifier c).1 = false →
      (isBlocked now t identifier).1 = true ∨
      ∃ r, c = .ok r ∧ r.allowed = false) ∧
    (∀ c, (socketRateLimiterStep now t identifier c).1 = false →
      (isBlocked now t identifier).1 = true ∨
      ∃ r, c = .ok r ∧ r.allowed = false) := by
  refine ⟨?_, ?_, ?_⟩
  · intro hb
    constructor
    · simp [createRateLimiterStep, hb]
    · simp [socketRateLimiterStep, hb]
  · intro c h
    by_cases hb : (isBlocked now t identifier).1 = true
    · exact Or.inl hb
    · right
      simp only [Bool.not_eq_true] at hb
      simp only [createRateLimiterStep, hb, if_false] at h
      cases c with
      | err => simp at h
      | ok r =>
        refine ⟨r, rfl, ?_⟩
        by_cases hr : r.allowed = true
        · simp [hr] at h
        · simpa using hr
  · intro c h
    by_cases hb : (isBlocked now t identifier).1 = true
    · exact Or.inl hb
    · right
      simp only [Bool.not_eq_true] at hb
      simp only [socketRateLimiterStep, hb, if_false] at h
      cases c with
      | err => simp at h
      | ok r =>
        refine ⟨r, rfl, ?_⟩
        by_cases hr : r.allowed = true
        · simp [hr] at h
        · simpa using hr

/-- Witness for C10: with an empty abuse tracker (nobody blocked) and a
throwing cache check, both gates admit the request. -/
theorem rateLimit_gates_fail_open_witness :
    (createRateLimiterStep 0 [] "ip:1.2.3.4" .err).1 = true ∧
    (socketRateLimiterStep 0 [] "ip:1.2.3.4" .err).1 = true :=
  (rateLimit_gates_fail_open 0 [] "ip:1.2.3.4").1 rfl


/-- The minimum score of a sorted-set snapshot is the score of one of its
entries. -/
theorem minScore_mem (l : List (Nat × Nat)) (o : Nat)
    (h : minScore l = some o) : o ∈ l.map (·.1) := by
  induction l with
  | nil => simp [minScore] at h
  | cons e rest ih =>
    simp only [minScore] at h
    cases hr : minScore rest with
    | none =>
      rw [hr] at h
      simp only [Option.some.injEq] at h
      subst h
      simp
    | some m =>
      rw [hr] at h
      simp only [Option.some.injEq] at h
      by_cases hm : e.1 ≤ m
      · rw [if_pos hm] at h
        rw [← h]
        simp
      · rw [if_neg hm] at h
        simp only [List.map_cons, List.mem_cons]
        exact Or.inr (ih (h ▸ hr))

/-- A non-empty snapshot has a minimum score. -/
theorem minScore_cons (e : Nat × Nat) (rest : List (Nat × Nat)) :
    ∃ o, minScore (e :: rest) = some o := by
  simp only [minScore]
  cases minScore rest with
  | none => exact ⟨e.1, rfl⟩
  | some m => exact ⟨if e.1 ≤ m then e.1 else m, rfl⟩

/-- The second component of `incrementRateLimit` is the pruned set with
the current request's entry added. -/
theorem incrementRateLimit_snd (now tag windowMs maxRequests : Nat)
    (entries : List (Nat × Nat)) :
    (incrementRateLimit now tag entries windowMs maxRequests).2 =
      pruneInsert now tag windowMs entries := by
  unfold incrementRateLimit
  dsimp only
  split <;> rfl

/-- The result component of `incrementRateLimit`, as a function of the
updated sorted set. -/
theorem incrementRateLimit_fst (now tag windowMs maxRequests : Nat)
    (entries : List (Nat × Nat)) :
    (incrementRateLimit now tag entries windowMs maxRequests).1 =
      (if (pruneInsert now tag windowMs entries).length > maxRequests then
        (⟨false, 0,
          some (match minScore (pruneInsert now tag windowMs entries) with
                | some oldest => (oldest + windowMs - now + 999) / 1000
                | none => (windowMs + 999) / 1000)⟩ : RLResult)
      else
        ⟨true, maxRequests - (pruneInsert now tag windowMs entries).length,
          none⟩) := by
  unfold incrementRateLimit
  dsimp only
  split <;> simp_all

/-- Every entry surviving `pruneInsert` is inside the trailing window. -/
theorem pruneInsert_window (now tag windowMs : Nat)
    (entries : List (Nat × Nat)) (hw : 0 < windowMs) :
    ∀ e ∈ pruneInsert now tag windowMs entries, now < e.1 + windowMs := by
  intro e he
  unfold pruneInsert at he
  dsimp only at he
  by_cases hc : (now, tag) ∈ entries.filter (fun e => decide (now < e.1 + windowMs))
  · rw [if_pos hc] at he
    have := (List.mem_filter.mp he).2
    simpa using this
  · rw [if_neg hc] at he
    rcases List.mem_append.mp he with h | h
    · have := (List.mem_filter.mp h).2
      simpa using this
    · simp only [List.mem_singleton] at h
      subst h
      omega

/-- `pruneInsert` contains the current request's entry. -/
theorem pruneInsert_self_mem (now tag windowMs : Nat)
    (entries : List (Nat × Nat)) :
    (now, tag) ∈ pruneInsert now tag windowMs entries := by
  unfold pruneInsert
  dsimp only
  by_cases hc : (now, tag) ∈ entries.filter (fun e => decide (now < e.1 + windowMs))
  · rw [if_pos hc]; exact hc
  · rw [if_neg hc]; simp

/-- Six requests inside one 1000 ms window at limit 5, then a seventh
after the window has passed (the spec's rate-limiter test scenario). -/
def rlReq1 : RLResult × List (Nat × Nat) := incrementRateLimit 0 1 [] 1000 5

def rlReq2 : RLResult × List (Nat × Nat) := incrementRateLimit 100 2 rlReq1.2 1000 5

def rlReq3 : RLResult × List (Nat × Nat) := incrementRateLimit 200 3 rlReq2.2 1000 5

def rlReq4 : RLResult × List (Nat × Nat) := incrementRateLimit 300 4 rlReq3.2 1000 5

def rlReq5 : RLResult × List (Nat × Nat) := incrementRateLimit 400 5 rlReq4.2 1000 5

def rlReq6 : RLResult × List (Nat × Nat) := incrementRateLimit 500 6 rlReq5.2 1000 5

def rlReq7 : RLResult × List (Nat × Nat) := incrementRateLimit 1600 7 rlReq6.2 1000 5

/-- C3: the sliding-window check prunes entries older than
`now - windowMs`, inserts a uniquely tagged entry for the current
request, and allows the request iff the resulting cardinality is at most
`maxRequests`; every denial carries a positive `retryAfter` derived from
the oldest surviving entry's timestamp plus the window; and in the
concrete scenario (window 1000 ms, limit 5) exactly the sixth request in
the window is denied, with `retryAfter > 0`, while a request after the
window has passed is allowed again. -/
theorem incrementRateLimit_sliding_window (now tag windowMs maxRequests : Nat)
    (entries : List (Nat × Nat)) (hw : 0 < windowMs) :
    (∀ e ∈ (incrementRateLimit now tag entries windowMs maxRequests).2,
       now < e.1 + windowMs) ∧
    ((now, tag) ∈ (incrementRateLimit now tag entries windowMs maxRequests).2) ∧
    ((incrementRateLimit now tag entries windowMs maxRequests).1.allowed = true ↔
       (incrementRateLimit now tag entries windowMs maxRequests).2.length ≤
         maxRequests) ∧
    ((incrementRateLimit now tag entries windowMs maxRequests).1.allowed = false →
       ∃ oldest,
         minScore (incrementRateLimit now tag entries windowMs maxRequests).2 =
           some oldest ∧
         (incrementRateLimit now tag entries windowMs maxRequests).1.retryAfter =
           some ((oldest + windowMs - now + 999) / 1000) ∧
         0 < (oldest + windowMs - now + 999) / 1000) ∧
    (rlReq1.1.allowed = true ∧ rlReq2.1.allowed = true ∧
     rlReq3.1.allowed = true ∧ rlReq4.1.allowed = true ∧
     rlReq5.1.allowed = true ∧ rlReq6.1.allowed = false ∧
     rlReq6.1.retryAfter = some 1 ∧ rlReq7.1.allowed = true) := by
  refine ⟨?_, ?_, ?_, ?_, ?_⟩
  · rw [incrementRateLimit_snd]
    exact pruneInsert_window now tag windowMs entries hw
  · rw [incrementRateLimit_snd]
    exact pruneInsert_self_mem now tag windowMs entries
  · rw [incrementRateLimit_fst, incrementRateLimit_snd]
    by_cases hlen : (pruneInsert now tag windowMs entries).length > maxRequests
    · rw [if_pos hlen]
      dsimp only
      constructor
      · intro hf
        exact absurd hf (by simp)
      · intro hle
        exact absurd hlen (by omega)
    · rw [if_neg hlen]
      dsimp only
      constructor
      · intro _
        omega
      · intro _
        rfl
  · intro hdenied
    have hlen : (pruneInsert now tag windowMs entries).length > maxRequests := by
      by_contra hn
      rw [incrementRateLimit_fst, if_neg hn] at hdenied
      simp at hdenied
    obtain ⟨o, ho⟩ :
        ∃ o, minScore (pruneInsert now tag windowMs entries) = some o := by
      cases hl : pruneInsert now tag windowMs entries with
      | nil =>
        have := pruneInsert_self_mem now tag windowMs entries
        rw [hl] at this
        exact absurd this (List.not_mem_nil _)
      | cons e rest => exact minScore_cons e rest
    have homem := minScore_mem _ _ ho
    obtain ⟨e, hemem, heo⟩ := List.mem_map.mp homem
    have hlt : now < o + windowMs := by
      rw [← heo]
      exact pruneInsert_window now tag windowMs entries hw e hemem
    have hpos : 0 < (o + windowMs - now + 999) / 1000 := by
      have h1000 : 1000 ≤ o + windowMs - now + 999 := by omega
      exact Nat.div_pos h1000 (by norm_num)
    refine ⟨o, ?_, ?_, hpos⟩
    · rw [incrementRateLimit_snd]
      exact ho
    · rw [incrementRateLimit_fst, if_pos hlen]
      simp only [ho]
  · exact ⟨by decide, by decide, by decide, by decide, by decide, by decide,
      by decide, by decide⟩

/-- Witness for C3: the sliding-window theorem applied to the sixth
request of the concrete scenario (window 1000 ms, limit 5). -/
theorem incrementRateLimit_sliding_window_witness :
    (0 : Nat) < 1000 ∧
    ((500, 6) ∈ (incrementRateLimit 500 6 rlReq5.2 1000 5).2) :=
  ⟨by decide, (incrementRateLimit_sliding_window 500 6 1000 5 rlReq5.2 (by decide)).2.1⟩

/-- Abuse trace for C4: one denial at time 0 creates the entry
(`firstSeen = 0`), then nine further denials at time 1000 — the tenth
denial overall, still inside the one-hour abuse window — set `blocked`. -/
def c4tracker : Map AbuseEntry :=
  (fun t => trackAbuse 1000 t "user:42")^[9] (trackAbuse 0 [] "user:42")

/-- Counterexample for C4: the identity becomes blocked at time 1000 (the
tenth denial), yet `isBlocked` already returns `false` at time
86 400 999 — strictly less than 24 hours after the blocking moment
(1000 + `BLOCK_DURATION`), because the code anchors the block duration at
`firstSeen`, not at the moment the flag was set.  The trace after nine
denials is still unblocked, so blocking did happen only at the tenth. -/
theorem isBlocked_clears_before_24h_after_blocking :
    mget ((fun t => trackAbuse 1000 t "user:42")^[8]
      (trackAbuse 0 [] "user:42")) "user:42" = some ⟨9, 0, false⟩ ∧
    mget c4tracker "user:42" = some ⟨10, 0, true⟩ ∧
    (isBlocked 86400999 c4tracker "user:42").1 = false ∧
    86400999 < 1000 + BLOCK_DURATION := by
  refine ⟨by decide, by decide, by decide, by decide⟩

/-- C4 (amended): the tenth denial within the one-hour abuse window sets
the blocked flag; a blocked identity stays blocked — and is rejected by
both rate-limit gates without its tracker entry being touched — until 24
hours after the entry's `firstSeen` timestamp (the first denial of the
current abuse window), after which `isBlocked` returns `false` again and
the entry is removed. -/
theorem abuse_block_runs_from_firstSeen (t : Map AbuseEntry) (id : String)
    (e : AbuseEntry) (now : Nat) (he : mget t id = some e) :
    (e.blocked = false → e.count = 9 → now - e.firstSeen ≤ ABUSE_WINDOW →
       mget (trackAbuse now t id) id = some ⟨10, e.firstSeen, true⟩) ∧
    (e.blocked = true → now - e.firstSeen ≤ BLOCK_DURATION →
       isBlocked now t id = (true, t)) ∧
    (e.blocked = true → now - e.firstSeen > BLOCK_DURATION →
       isBlocked now t id = (false, mdel t id)) ∧
    (e.blocked = true → now - e.firstSeen ≤ BLOCK_DURATION →
       ∀ c, createRateLimiterStep now t id c = (false, t) ∧
            socketRateLimiterStep now t id c = (false, t)) := by
  have hblocked : e.blocked = true → now - e.firstSeen ≤ BLOCK_DURATION →
      isBlocked now t id = (true, t) := by
    intro hb hd
    unfold isBlocked
    simp only [he, hb]
    rw [if_neg (by simp)]
    rw [if_neg (by omega)]
  refine ⟨?_, hblocked, ?_, ?_⟩
  · intro hb hc hw
    unfold trackAbuse
    simp only [he]
    rw [if_neg (by omega)]
    rw [hc, hb]
    have h10 : (9 : Nat) + 1 = 10 := rfl
    rw [h10]
    rw [show (false || decide (10 ≥ ABUSE_THRESHOLD)) = true from by decide]
    exact mget_mset_self t id ⟨10, e.firstSeen, true⟩
  · intro hb hd
    unfold isBlocked
    simp only [he, hb]
    rw [if_neg (by simp)]
    rw [if_pos (by omega)]
  · intro hb hd c
    constructor
    · unfold createRateLimiterStep
      rw [hblocked hb hd]
      simp
    · unfold socketRateLimiterStep
      rw [hblocked hb hd]
      simp

/-- Witness for C4: the amended behaviour at concrete states — a ninth
count raised to ten gets blocked, a blocked entry is still blocked (and
gated) 23 hours after `firstSeen`, and is cleared one millisecond after
`BLOCK_DURATION` has elapsed. -/
theorem abuse_block_runs_from_firstSeen_witness :
    mget (trackAbuse 3600000 [("u", (⟨9, 0, false⟩ : AbuseEntry))] "u") "u" =
      some ⟨10, 0, true⟩ ∧
    isBlocked 82800000 [("u", (⟨10, 0, true⟩ : AbuseEntry))] "u" =
      (true, [("u", ⟨10, 0, true⟩)]) ∧
    isBlocked 86400001 [("u", (⟨10, 0, true⟩ : AbuseEntry))] "u" =
      (false, mdel [("u", (⟨10, 0, true⟩ : AbuseEntry))] "u") ∧
    createRateLimiterStep 82800000 [("u", (⟨10, 0, true⟩ : AbuseEntry))] "u"
      .err = (false, [("u", ⟨10, 0, true⟩)]) :=
  ⟨(abuse_block_runs_from_firstSeen [("u", ⟨9, 0, false⟩)] "u" ⟨9, 0, false⟩
      3600000 (by decide)).1 rfl rfl (by decide),
   (abuse_block_runs_from_firstSeen [("u", ⟨10, 0, true⟩)] "u" ⟨10, 0, true⟩
      82800000 (by decide)).2.1 rfl (by decide),
   (abuse_block_runs_from_firstSeen [("u", ⟨10, 0, true⟩)] "u" ⟨10, 0, true⟩
      86400001 (by decide)).2.2.1 rfl (by decide),
   ((abuse_block_runs_from_firstSeen [("u", ⟨10, 0, true⟩)] "u" ⟨10, 0, true⟩
      82800000 (by decide)).2.2.2 rfl (by decide) .err).1⟩

/-- `getYjsDocument` only touches the memory-tier replica cache and the
Redis document-state cache: it never changes the pending updates, the
update counters, or the durable store. -/
theorem getYjsDocument_preserves (now : Nat) (s : DocState) (st : Stores)
    (documentId : String) (d : Bytes) (s' : DocState) (st' : Stores)
    (h : getYjsDocument now s st documentId = .ok (d, s', st')) :
    s'.pendingUpdates = s.pendingUpdates ∧
    s'.updateCount = s.updateCount ∧
    st'.dbDocs = st.dbDocs := by
  unfold getYjsDocument getFromDatabase at h
  cases hc : mget s.yjsDocumentCache documentId with
  | some c =>
    simp only [hc, Except.ok.injEq, Prod.mk.injEq] at h
    obtain ⟨-, h2, h3⟩ := h
    rw [← h2, ← h3]
    exact ⟨rfl, rfl, rfl⟩
  | none =>
    simp only [hc] at h
    cases hr : mget st.redisDocState documentId with
    | some cachedState =>
      simp only [hr] at h
      by_cases hemp : cachedState.isEmpty
      · rw [if_pos hemp] at h
        cases hdb : mget st.dbDocs documentId with
        | none =>
          simp only [hdb] at h
          exact Except.noConfusion h
        | some row =>
          simp only [hdb, Except.ok.injEq, Prod.mk.injEq] at h
          obtain ⟨-, h2, h3⟩ := h
          rw [← h2, ← h3]
          exact ⟨rfl, rfl, rfl⟩
      · rw [if_neg hemp] at h
        simp only [Except.ok.injEq, Prod.mk.injEq] at h
        obtain ⟨-, h2, h3⟩ := h
        rw [← h2, ← h3]
        exact ⟨rfl, rfl, rfl⟩
    | none =>
      simp only [hr] at h
      cases hdb : mget st.dbDocs documentId with
      | none =>
        simp only [hdb] at h
        exact Except.noConfusion h
      | some row =>
        simp only [hdb, Except.ok.injEq, Prod.mk.injEq] at h
        obtain ⟨-, h2, h3⟩ := h
        rw [← h2, ← h3]
        exact ⟨rfl, rfl, rfl⟩

/-- C7: a single-document flush is atomic with respect to the dirty
state — on a successful durable write it removes the pending update and
resets the counter to 0 (and the store holds the flushed state); on a
failed write it leaves the whole service state and stores unchanged, so
repeating the tick any number of times while the store is down changes
nothing, until a successful write clears the record. -/
theorem syncDocument_atomic_dirty_state (now : Nat) (documentId : String) :
    (∀ (s : DocState) (st : Stores) (pu : PendingUpdate),
       mget s.pendingUpdates documentId = some pu →
       (mget st.dbDocs documentId).isSome = true →
       syncDocumentToDatabase now true s st documentId =
         ({ s with
             pendingUpdates := mdel s.pendingUpdates documentId,
             updateCount := mset s.updateCount documentId 0 },
          { st with
             dbDocs := mset st.dbDocs documentId ⟨pu.state, now⟩ })) ∧
    (∀ (s : DocState) (st : Stores),
       syncDocumentToDatabase now false s st documentId = (s, st)) ∧
    (∀ (s : DocState) (st : Stores) (k : Nat),
       (fun p : DocState × Stores =>
         syncDocumentToDatabase now false p.1 p.2 documentId)^[k] (s, st) =
       (s, st)) := by
  have hfail : ∀ (s : DocState) (st : Stores),
      syncDocumentToDatabase now false s st documentId = (s, st) := by
    intro s st
    unfold syncDocumentToDatabase
    cases hp : mget s.pendingUpdates documentId with
    | none => simp
    | some pu => simp
  refine ⟨?_, hfail, ?_⟩
  · intro s st pu hp hdb
    unfold syncDocumentToDatabase
    simp only [hp]
    rw [if_pos (by simp [hdb])]
  · intro s st k
    induction k with
    | zero => rfl
    | succ k ih =>
      rw [Function.iterate_succ_apply, hfail, ih]

/-- Witness for C7: a concrete dirty document flushed against a live
store clears its record, while a failing store leaves everything intact
over three ticks. -/
theorem syncDocument_atomic_dirty_state_witness :
    syncDocumentToDatabase 9 true
      (⟨[("d", ⟨"d", [1], 3⟩)], [("d", 4)], []⟩ : DocState)
      (⟨[], [("d", ⟨[0], 0⟩)]⟩ : Stores) "d" =
      ({ (⟨[("d", ⟨"d", [1], 3⟩)], [("d", 4)], []⟩ : DocState) with
          pendingUpdates := mdel [("d", ⟨"d", [1], 3⟩)] "d",
          updateCount := mset [("d", 4)] "d" 0 },
       { (⟨[], [("d", ⟨[0], 0⟩)]⟩ : Stores) with
          dbDocs := mset [("d", ⟨[0], 0⟩)] "d" ⟨[1], 9⟩ }) ∧
    (fun p : DocState × Stores =>
        syncDocumentToDatabase 9 false p.1 p.2 "d")^[3]
      (⟨[("d", ⟨"d", [1], 3⟩)], [("d", 4)], []⟩,
       ⟨[], [("d", ⟨[0], 0⟩)]⟩) =
      (⟨[("d", ⟨"d", [1], 3⟩)], [("d", 4)], []⟩,
       ⟨[], [("d", ⟨[0], 0⟩)]⟩) :=
  ⟨(syncDocument_atomic_dirty_state 9 "d").1
      ⟨[("d", ⟨"d", [1], 3⟩)], [("d", 4)], []⟩
      ⟨[], [("d", ⟨[0], 0⟩)]⟩ ⟨"d", [1], 3⟩ (by decide) (by decide),
   (syncDocument_atomic_dirty_state 9 "d").2.2
      ⟨[("d", ⟨"d", [1], 3⟩)], [("d", 4)], []⟩
      ⟨[], [("d", ⟨[0], 0⟩)]⟩ 3⟩

/-- Equation for a successful single-document flush. -/
theorem syncDocument_success (now : Nat) (s : DocState) (st : Stores)
    (documentId : String) (pu : PendingUpdate)
    (hp : mget s.pendingUpdates documentId = some pu)
    (hdb : (mget st.dbDocs documentId).isSome = true) :
    syncDocumentToDatabase now true s st documentId =
      ({ s with
          pendingUpdates := mdel s.pendingUpdates documentId,
          updateCount := mset s.updateCount documentId 0 },
       { st with dbDocs := mset st.dbDocs documentId ⟨pu.state, now⟩ }) := by
  unfold syncDocumentToDatabase
  simp only [hp]
  rw [if_pos (by simp [hdb])]

/-- C8: once the unflushed-update counter reaches `BATCH_WRITE_THRESHOLD`
(10), `applyYjsUpdate` calls the flush immediately instead of waiting for
the periodic tick — and when the durable store is up and the row exists,
the call completes with the freshly cached serialized state written
durably, the pending update removed and the counter reset to 0. -/
theorem applyYjsUpdate_threshold_forces_flush (now : Nat) (dbOk : Bool)
    (s : DocState) (st : Stores) (documentId : String) (u : Bytes)
    (r : ApplyResult)
    (h : applyYjsUpdate now dbOk s st documentId u = .ok r)
    (hcnt : BATCH_WRITE_THRESHOLD ≤ (mget s.updateCount documentId).getD 0 + 1) :
    r.syncAttempted = true ∧
    (dbOk = true → (mget st.dbDocs documentId).isSome = true →
      ∃ ns, mget r.stores.redisDocState documentId = some ns ∧
            mget r.stores.dbDocs documentId = some ⟨ns, now⟩ ∧
            mget r.docState.pendingUpdates documentId = none ∧
            mget r.docState.updateCount documentId = some 0) := by
  unfold applyYjsUpdate at h
  cases hg : getYjsDocument now s st documentId with
  | error e =>
    simp only [hg] at h
    exact Except.noConfusion h
  | ok trip =>
    obtain ⟨d0, s1, st1⟩ := trip
    obtain ⟨hpp, hcc, hdb1⟩ :=
      getYjsDocument_preserves now s st documentId d0 s1 st1 hg
    simp only [hg] at h
    rw [hcc] at h
    rw [if_pos hcnt] at h
    simp only [Except.ok.injEq] at h
    subst h
    refine ⟨rfl, ?_⟩
    intro hdbok hrow
    subst hdbok
    have hp : mget
        ({ s1 with
            yjsDocumentCache := mset s1.yjsDocumentCache documentId
              ⟨applyUpdate d0 u, now⟩,
            updateCount := mset s.updateCount documentId
              ((mget s.updateCount documentId).getD 0 + 1),
            pendingUpdates := mset s1.pendingUpdates documentId
              ⟨documentId, encodeStateAsUpdate (applyUpdate d0 u), now⟩ } :
          DocState).pendingUpdates documentId =
        some ⟨documentId, encodeStateAsUpdate (applyUpdate d0 u), now⟩ :=
      mget_mset_self _ _ _
    have hdb2 : (mget
        ({ st1 with
            redisDocState := mset st1.redisDocState documentId
              (encodeStateAsUpdate (applyUpdate d0 u)) } : Stores).dbDocs
        documentId).isSome = true := by
      dsimp only
      rw [hdb1]
      exact hrow
    rw [syncDocument_success now _ _ documentId _ hp hdb2]
    refine ⟨encodeStateAsUpdate (applyUpdate d0 u), ?_, ?_, ?_, ?_⟩
    · dsimp only
      exact mget_mset_self _ _ _
    · dsimp only
      exact mget_mset_self _ _ _
    · dsimp only
      exact mget_mdel_self _ _
    · dsimp only
      exact mget_mset_self _ _ _

/-- Witness for C8: with nine unflushed updates already recorded for
document `"w8"` and a live durable row, the tenth update forces the flush
and durably writes the merged state. -/
theorem applyYjsUpdate_threshold_forces_flush_witness :
    (applyYjsUpdate 7 true
        (⟨[("w8", ⟨"w8", [5], 2⟩)], [("w8", 9)], [("w8", ⟨[5], 2⟩)]⟩ : DocState)
        (⟨[("w8", [5])], [("w8", ⟨[5], 0⟩)]⟩ : Stores) "w8" [6]).map
      ApplyResult.syncAttempted = Except.ok true := by
  have hr : applyYjsUpdate 7 true
      (⟨[("w8", ⟨"w8", [5], 2⟩)], [("w8", 9)], [("w8", ⟨[5], 2⟩)]⟩ : DocState)
      (⟨[("w8", [5])], [("w8", ⟨[5], 0⟩)]⟩ : Stores) "w8" [6] =
      Except.ok ⟨⟨[], [("w8", 0)], [("w8", ⟨[5, 6], 7⟩)]⟩,
        ⟨[("w8", [5, 6])], [("w8", ⟨[5, 6], 7⟩)]⟩, true, none⟩ := rfl
  have hs := (applyYjsUpdate_threshold_forces_flush 7 true
      ⟨[("w8", ⟨"w8", [5], 2⟩)], [("w8", 9)], [("w8", ⟨[5], 2⟩)]⟩
      ⟨[("w8", [5])], [("w8", ⟨[5], 0⟩)]⟩ "w8" [6] _ hr (by decide)).1
  rw [hr]
  exact congrArg Except.ok hs

/-- A flush never touches the memory-tier replica cache or the Redis
document-state cache. -/
theorem syncDocument_preserves_caches (now : Nat) (dbOk : Bool)
    (s : DocState) (st : Stores) (documentId : String) :
    (syncDocumentToDatabase now dbOk s st documentId).1.yjsDocumentCache =
      s.yjsDocumentCache ∧
    (syncDocumentToDatabase now dbOk s st documentId).2.redisDocState =
      st.redisDocState := by
  unfold syncDocumentToDatabase
  cases hp : mget s.pendingUpdates documentId with
  | none =>
    simp [hp]
  | some pu =>
    simp only [hp]
    by_cases hc : (dbOk && (mget st.dbDocs documentId).isSome) = true
    · rw [if_pos hc]
      exact ⟨rfl, rfl⟩
    · rw [if_neg hc]
      exact ⟨rfl, rfl⟩

/-- C6 (amended): `applyYjsUpdate` merges the update bytes into the
resolved replica, stores the merged replica in the memory tier with a
refreshed access time, writes the new full serialized state to the
shared cache and (unless an immediate flush consumed it) records it as
the pending update — but it returns nothing to its caller: the
TypeScript function is `Promise<void>`, so the new state is only
observable through the caches, not through a return value. -/
theorem applyYjsUpdate_merge_contract (now : Nat) (dbOk : Bool)
    (s : DocState) (st : Stores) (documentId : String) (u : Bytes)
    (r : ApplyResult)
    (h : applyYjsUpdate now dbOk s st documentId u = .ok r) :
    ∃ d0 s1 st1, getYjsDocument now s st documentId = .ok (d0, s1, st1) ∧
      mget r.docState.yjsDocumentCache documentId =
        some ⟨applyUpdate d0 u, now⟩ ∧
      mget r.stores.redisDocState documentId =
        some (encodeStateAsUpdate (applyUpdate d0 u)) ∧
      (r.syncAttempted = false →
        mget r.docState.pendingUpdates documentId =
          some ⟨documentId, encodeStateAsUpdate (applyUpdate d0 u), now⟩) ∧
      r.returnedState = none := by
  unfold applyYjsUpdate at h
  cases hg : getYjsDocument now s st documentId with
  | error e =>
    simp only [hg] at h
    exact Except.noConfusion h
  | ok trip =>
    obtain ⟨d0, s1, st1⟩ := trip
    simp only [hg] at h
    refine ⟨d0, s1, st1, rfl, ?_⟩
    by_cases hth :
        (mget s1.updateCount documentId).getD 0 + 1 ≥ BATCH_WRITE_THRESHOLD
    · rw [if_pos hth] at h
      simp only [Except.ok.injEq] at h
      subst h
      refine ⟨?_, ?_, ?_, rfl⟩
      · rw [(syncDocument_preserves_caches _ _ _ _ _).1]
        dsimp only
        exact mget_mset_self _ _ _
      · rw [(syncDocument_preserves_caches _ _ _ _ _).2]
        dsimp only
        exact mget_mset_self _ _ _
      · intro hfalse
        exact absurd hfalse (by simp)
    · rw [if_neg hth] at h
      simp only [Except.ok.injEq] at h
      subst h
      refine ⟨?_, ?_, ?_, rfl⟩
      · dsimp only
        exact mget_mset_self _ _ _
      · dsimp only
        exact mget_mset_self _ _ _
      · intro _
        dsimp only
        exact mget_mset_self _ _ _

/-- Counterexample for C6: on a successful `applyYjsUpdate` call the new
full serialized state (`[1, 2]`) exists — it is written to the shared
cache — but the value handed back to the caller is `none`, not that
state: the source function is typed `Promise<void>` and has no return
statement, so it cannot return the new serialized state. -/
theorem applyYjsUpdate_returns_no_state :
    (applyYjsUpdate 0 true (⟨[], [], []⟩ : DocState)
        (⟨[], [("doc-c6", ⟨[1], 0⟩)]⟩ : Stores) "doc-c6" [2]).map
      ApplyResult.returnedState = Except.ok none ∧
    (applyYjsUpdate 0 true (⟨[], [], []⟩ : DocState)
        (⟨[], [("doc-c6", ⟨[1], 0⟩)]⟩ : Stores) "doc-c6" [2]).map
      (fun r => mget r.stores.redisDocState "doc-c6") =
      Except.ok (some [1, 2]) ∧
    (Except.ok (none : Option Bytes) : Except String (Option Bytes)) ≠
      Except.ok (some ([1, 2] : Bytes)) :=
  ⟨rfl, rfl, by simp⟩

/-- Witness for C6 (amended): the merge contract applied to a concrete
call resolving from the shared cache. -/
theorem applyYjsUpdate_merge_contract_witness :
    (applyYjsUpdate 3 true (⟨[], [], []⟩ : DocState)
        (⟨[("w6", [4])], []⟩ : Stores) "w6" [9]).map
      ApplyResult.returnedState = Except.ok none := by
  have hr : applyYjsUpdate 3 true (⟨[], [], []⟩ : DocState)
      (⟨[("w6", [4])], []⟩ : Stores) "w6" [9] =
      Except.ok ⟨⟨[("w6", ⟨"w6", [4, 9], 3⟩)], [("w6", 1)],
        [("w6", ⟨[4, 9], 3⟩)]⟩, ⟨[("w6", [4, 9])], []⟩, false, none⟩ := rfl
  obtain ⟨d0, s1, st1, hg, hcache, hredis, hpend, hret⟩ :=
    applyYjsUpdate_merge_contract 3 true ⟨[], [], []⟩ ⟨[("w6", [4])], []⟩
      "w6" [9] _ hr
  rw [hr]
  exact congrArg Except.ok hret

/-- C5 (amended): `getYjsDocument` returns the in-memory replica with a
refreshed access time when present; otherwise it decodes non-empty
SharedCache bytes into a fresh replica; otherwise it falls back to the
durable store — returning an empty replica only when the row exists with
empty content, and storing the result in the memory tier before
returning.  When the document is absent from all tiers it throws
`Document not found` rather than creating an empty replica. -/
theorem getYjsDocument_resolution_contract (now : Nat) (s : DocState)
    (st : Stores) (documentId : String) :
    (∀ c, mget s.yjsDocumentCache documentId = some c →
       getYjsDocument now s st documentId =
         .ok (c.doc,
           { s with yjsDocumentCache := mset s.yjsDocumentCache documentId
                                          ⟨c.doc, now⟩ },
           st)) ∧
    (∀ b, mget s.yjsDocumentCache documentId = none →
       mget st.redisDocState documentId = some b → b.isEmpty = false →
       getYjsDocument now s st documentId =
         .ok (applyUpdate emptyDoc b,
           { s with yjsDocumentCache := mset s.yjsDocumentCache documentId
                                          ⟨applyUpdate emptyDoc b, now⟩ },
           st)) ∧
    (∀ row, mget s.yjsDocumentCache documentId = none →
       (mget st.redisDocState documentId).getD [] = [] →
       mget st.dbDocs documentId = some row →
       getYjsDocument now s st documentId =
         .ok ((if row.content.isEmpty then emptyDoc
               else applyUpdate emptyDoc row.content),
           { s with yjsDocumentCache := mset s.yjsDocumentCache documentId
                                          ⟨(if row.content.isEmpty then emptyDoc
                                            else applyUpdate emptyDoc row.content),
                                           now⟩ },
           { st with redisDocState := mset st.redisDocState documentId
                                        row.content })) ∧
    (mget s.yjsDocumentCache documentId = none →
       mget st.redisDocState documentId = none →
       mget st.dbDocs documentId = none →
       getYjsDocument now s st documentId = .error "Document not found") := by
  refine ⟨?_, ?_, ?_, ?_⟩
  · intro c hc
    unfold getYjsDocument
    simp only [hc]
  · intro b hc hr hb
    unfold getYjsDocument
    simp only [hc, hr]
    rw [if_neg (by rw [hb]; exact Bool.false_ne_true)]
  · intro row hc hr hdb
    unfold getYjsDocument getFromDatabase
    cases hrv : mget st.redisDocState documentId with
    | none =>
      simp only [hc, hrv, hdb]
    | some b =>
      have hb : b = [] := by
        rw [hrv] at hr
        simpa using hr
      subst hb
      simp only [hc, hrv, hdb]
      rw [if_pos (by simp)]
  · intro hc hr hdb
    unfold getYjsDocument getFromDatabase
    simp only [hc, hr, hdb]

/-- Counterexample for C5: with the document absent from the memory
tier, the shared cache and the durable store, `getYjsDocument` throws
`Document not found` instead of creating and returning an empty
replica. -/
theorem getYjsDocument_absent_everywhere_throws :
    getYjsDocument 0 (⟨[], [], []⟩ : DocState) (⟨[], []⟩ : Stores) "doc-c5" =
      Except.error "Document not found" := rfl

/-- Witness for C5 (amended): at a concrete state the durable-store
fallback (row present with empty content) yields the empty replica, and
the absent-row case throws. -/
theorem getYjsDocument_resolution_contract_witness :
    getYjsDocument 4 (⟨[], [], []⟩ : DocState)
      (⟨[], [("w5", ⟨[], 1⟩)]⟩ : Stores) "w5" =
      .ok ((if ([] : Bytes).isEmpty then emptyDoc
            else applyUpdate emptyDoc []),
        { (⟨[], [], []⟩ : DocState) with
            yjsDocumentCache := mset ([] : Map CachedDoc) "w5"
                                  ⟨(if ([] : Bytes).isEmpty then emptyDoc
                                    else applyUpdate emptyDoc []), 4⟩ },
        { (⟨[], [("w5", ⟨[], 1⟩)]⟩ : Stores) with
            redisDocState := mset ([] : Map Bytes) "w5" [] }) ∧
    getYjsDocument 4 (⟨[], [], []⟩ : DocState) (⟨[], []⟩ : Stores) "w5" =
      Except.error "Document not found" :=
  ⟨(getYjsDocument_resolution_contract 4 ⟨[], [], []⟩
      ⟨[], [("w5", ⟨[], 1⟩)]⟩ "w5").2.2.1 ⟨[], 1⟩ rfl (by decide) (by decide),
   (getYjsDocument_resolution_contract 4 ⟨[], [], []⟩
      ⟨[], []⟩ "w5").2.2.2 rfl rfl rfl⟩

/-- C1 (violated by the code): after 101 consecutive updates to one
document while every durable-store write fails, the unflushed-update
counter stands at 101, strictly above the declared hard cap
`MAX_PENDING_UPDATES` (100) — the constant is declared in
`src/services/documentService.ts` but never consulted, so nothing stops
the counter or forces acceptance to wait once the cap is passed. -/
theorem updateCount_exceeds_cap_under_persistent_failure :
    (applyN 101 0 false
        (⟨[], [], []⟩, ⟨[], [("doc-c1", ⟨[1], 0⟩)]⟩)
        "doc-c1" []).map (fun p => mget p.1.updateCount "doc-c1") =
      Except.ok (some 101) ∧
    MAX_PENDING_UPDATES < 101 := by
  exact ⟨rfl, by decide⟩

/-- C2 (violated by the code): two dirty documents `"a"` and `"b"`, the
transactional write succeeding for `"a"` and throwing for `"b"`.  The
transaction rolls back, so neither durable write survives (the store is
unchanged), yet `"a"`'s Dirty Record was already deleted in memory and it
is reported among the `synced` count — its update is silently dropped,
while the claim requires every document whose durable write did not
succeed to keep its Dirty Record. -/
theorem batchSync_rollback_drops_dirty_record :
    (batchSyncDocuments (fun id => id == "a") 5
        (⟨[("a", ⟨"a", [1], 0⟩), ("b", ⟨"b", [2], 0⟩)],
          [("a", 3), ("b", 4)], []⟩ : DocState)
        (⟨[], [("a", ⟨[0], 0⟩), ("b", ⟨[0], 0⟩)]⟩ : Stores)).synced = 1 ∧
    (batchSyncDocuments (fun id => id == "a") 5
        (⟨[("a", ⟨"a", [1], 0⟩), ("b", ⟨"b", [2], 0⟩)],
          [("a", 3), ("b", 4)], []⟩ : DocState)
        (⟨[], [("a", ⟨[0], 0⟩), ("b", ⟨[0], 0⟩)]⟩ : Stores)).failed = 1 ∧
    (batchSyncDocuments (fun id => id == "a") 5
        (⟨[("a", ⟨"a", [1], 0⟩), ("b", ⟨"b", [2], 0⟩)],
          [("a", 3), ("b", 4)], []⟩ : DocState)
        (⟨[], [("a", ⟨[0], 0⟩), ("b", ⟨[0], 0⟩)]⟩ : Stores)).stores =
      ⟨[], [("a", ⟨[0], 0⟩), ("b", ⟨[0], 0⟩)]⟩ ∧
    mget (batchSyncDocuments (fun id => id == "a") 5
        (⟨[("a", ⟨"a", [1], 0⟩), ("b", ⟨"b", [2], 0⟩)],
          [("a", 3), ("b", 4)], []⟩ : DocState)
        (⟨[], [("a", ⟨[0], 0⟩), ("b", ⟨[0], 0⟩)]⟩ : Stores)).docState.pendingUpdates
      "a" = none := by
  exact ⟨by decide, by decide, by decide, by decide⟩
